import Mathlib

/-!
Verification of the attachment plugin in pkg/plugin/plugin.go: a shallow
embedding of its pure computations (VLAN trunk resolution, bridge resolution,
MAC derivation) and of the stateful command handlers CmdAdd / CmdDel as
functions over explicit outcome oracles for their external collaborators,
recording the externally visible actions each run performs.
-/

deriving instance DecidableEq for Except

set_option maxRecDepth 8000

namespace OvsCni

/-- Go errors are modelled by their message string. -/
abbrev Err := String

/-- types.Trunk: a trunk entry of the network configuration, with optional
min/max bounds and an optional single ID (all Go *uint fields). -/
structure Trunk where
  minID : Option ℕ
  maxID : Option ℕ
  id : Option ℕ
deriving DecidableEq

/-- A Go map used as a set of VLAN ids, modelled as its list of distinct keys
in insertion order: vlans[v] = true adds the key v if it is not present. -/
def mapInsert (vlans : List ℕ) (v : ℕ) : List ℕ :=
  if v ∈ vlans then vlans else vlans ++ [v]

/-- The range loop of splitVlanIds (plugin.go lines 232-236): when both
bounds are positive, add every id from minID to maxID to the key set. -/
def accumRange (vlans : List ℕ) (minID maxID : ℕ) : List ℕ :=
  if minID > 0 ∧ maxID > 0 then
    (List.range' minID (maxID + 1 - minID)).foldl mapInsert vlans
  else vlans

/-- One iteration of the loop body of splitVlanIds (plugin.go lines 214-245):
check the bounds of the entry and accumulate its VLAN ids into `vlans`.
The final check before inserting a single id compares minID, not id, with
4096, exactly as the source does. -/
def processTrunk (vlans : List ℕ) (item : Trunk) : Except Err (List ℕ) :=
  if item.minID.isSome ∧ item.minID.getD 0 > 4096 then
    .error "incorrect trunk minID parameter"
  else if item.maxID.isSome ∧ item.maxID.getD 0 > 4096 then
    .error "incorrect trunk maxID parameter"
  else if item.maxID.isSome ∧ item.maxID.getD 0 < item.minID.getD 0 then
    .error "minID is greater than maxID in trunk parameter"
  else
    match item.id with
    | some i =>
        if item.minID.getD 0 > 4096 then .error "incorrect trunk id parameter"
        else .ok (mapInsert (accumRange vlans (item.minID.getD 0) (item.maxID.getD 0)) i)
    | none => .ok (accumRange vlans (item.minID.getD 0) (item.maxID.getD 0))

/-- splitVlanIds (plugin.go lines 212-255): fold the entries into a set of
VLAN ids, fail if the set ends empty, and return the ascending sorted list
(the Go code copies the map keys out and sorts them ascending). -/
def splitVlanIds (trunks : List Trunk) : Except Err (List ℕ) :=
  match trunks.foldlM processTrunk ([] : List ℕ) with
  | .error e => .error e
  | .ok vlans =>
      if vlans = [] then .error "trunk parameter is misconfigured"
      else .ok (vlans.insertionSort (· ≤ ·))

/-- The ids a single trunk entry contributes under the code semantics: a range
counts only when both bounds are positive. -/
def rangeMembers (item : Trunk) : Finset ℕ :=
  match item.minID, item.maxID with
  | some m, some M => if 0 < m ∧ 0 < M then Finset.Icc m M else ∅
  | _, _ => ∅

/-- The single id of a trunk entry, as a set. -/
def singleMember (item : Trunk) : Finset ℕ :=
  match item.id with
  | some i => {i}
  | none => ∅

/-- The set of VLAN ids splitVlanIds accumulates over a trunk list. -/
def codeTrunkSet (trunks : List Trunk) : Finset ℕ :=
  trunks.foldr (fun item s => rangeMembers item ∪ singleMember item ∪ s) ∅

/-- Modelled from the claim of the specification, for comparison with the
code: the union of all specified single IDs and of all members of every
specified min/max range, with no positivity side condition on the bounds. -/
def claimedTrunkSet (trunks : List Trunk) : Finset ℕ :=
  trunks.foldr (fun item s =>
    (match item.minID, item.maxID with
     | some m, some M => Finset.Icc m M
     | _, _ => (∅ : Finset ℕ)) ∪ singleMember item ∪ s) ∅

/-- The port-kind computation at the top of CmdAdd (plugin.go lines 280-294):
portType starts as access and becomes trunk when the VLAN tag is nil or trunk
entries exist; the result carries (portType, trunk ids, vlan tag number). -/
def computeVlanPolicy (vlanTag : Option ℕ) (trunk : List Trunk) :
    Except Err (String × List ℕ × ℕ) :=
  if vlanTag = none ∨ trunk ≠ [] then
    if trunk ≠ [] then
      (splitVlanIds trunk).map (fun ids => ("trunk", ids, 0))
    else .ok ("trunk", ([] : List ℕ), 0)
  else .ok ("access", ([] : List ℕ), vlanTag.getD 0)

/-! Bridge resolution (getBridgeName, plugin.go lines 163-187). The two
collaborators it consults are modelled as outcome oracles. -/

/-- Collaborator outcomes for getBridgeName: the uplink-name discovery of the
offload subsystem (sriov.GetBridgeUplinkNameByDeviceID) and the switch
database lookup of the bridge owning an uplink (driver.FindBridgeByInterface). -/
structure BridgeEnv where
  uplinks : Except Err (List String)
  findBridgeByInterface : String → Except Err String

/-- The loop of getBridgeName over candidate uplink names (plugin.go lines
174-182): return the first bridge found, or the list of per-candidate errors
accumulated when every candidate fails. -/
def findBridgeLoop (env : BridgeEnv) : List String → Except (List Err) String
  | [] => .error []
  | u :: us =>
      match env.findBridgeByInterface u with
      | .ok b => .ok b
      | .error e =>
          match findBridgeLoop env us with
          | .ok b => .ok b
          | .error errList =>
              .error (("failed to get bridge name - failed to find bridge name by uplink name "
                ++ u ++ ": " ++ e) :: errList)

/-- getBridgeName (plugin.go lines 163-187), with its fixed priority order:
explicit bridge name, then the well-known ovnPort shortcut, then uplink
discovery for a device identifier, else failure. -/
def getBridgeName (env : BridgeEnv) (bridgeName ovnPort deviceID : String) :
    Except Err String :=
  if bridgeName ≠ "" then .ok bridgeName
  else if bridgeName = "" ∧ ovnPort ≠ "" then .ok "br-int"
  else if deviceID ≠ "" then
    match env.uplinks with
    | .error e => .error ("failed to get bridge name - failed to resolve uplink name: " ++ e)
    | .ok us =>
        match findBridgeLoop env us with
        | .ok b => .ok b
        | .error errList =>
            .error ("failed to find bridge by uplink names ["
              ++ String.intercalate " " us ++ "]: ["
              ++ String.intercalate " " errList ++ "]")
  else .error "failed to get bridge name"

/-- The first candidate uplink whose owning bridge the switch database
resolves, written the way the specification describes the loop. -/
def firstResolvedBridge (env : BridgeEnv) : List String → Option String
  | [] => none
  | u :: us =>
      match env.findBridgeByInterface u with
      | .ok b => some b
      | .error _ => firstResolvedBridge env us

/-! Host-side interface re-reading (getHardwareAddr / refetchIface,
plugin.go lines 82-89 and 207-210). -/

/-- A kernel link as far as the plugin reads it: its hardware address. -/
structure NetLink where
  mac : String
deriving DecidableEq

/-- getHardwareAddr (plugin.go lines 82-89): the MAC of the named link, or the
empty string when the netlink lookup fails. -/
def getHardwareAddr (linkByName : String → Except Err NetLink) (ifName : String) : String :=
  match linkByName ifName with
  | .error _ => ""
  | .ok l => l.mac

/-- A CNI interface record (current.Interface): name, MAC, sandbox path. -/
structure CniIface where
  name : String
  mac : String
  sandbox : String
deriving DecidableEq

/-- refetchIface (plugin.go lines 207-210): overwrite the interface MAC with
whatever getHardwareAddr returns and report success unconditionally. -/
def refetchIface (linkByName : String → Except Err NetLink) (iface : CniIface) :
    Except Err CniIface :=
  .ok { iface with mac := getHardwareAddr linkByName iface.name }

/-! Link-state polling (waitLinkUp, plugin.go lines 481-498). The poll oracle
gives the outcome of the k-th call of ovsDriver.GetOFPortOpState; the model
returns the final error value and the trace of polls and sleeps. -/

/-- An externally visible event of the waitLinkUp loop. -/
inductive WaitEvent
  | poll (result : Except Err String)
  | sleep (interval : Int)
deriving DecidableEq

/-- Whether one poll outcome reports the operational state up: errors are
only logged, any other state string is not up. -/
def isUpResult : Except Err String → Bool
  | .ok s => s == "up"
  | .error _ => false

/-- The fatal error waitLinkUp returns when its retries are exhausted. -/
def linkUpFatalErr (ofPortName : String) : Err :=
  "The OF port " ++ ofPortName
    ++ " state is not up, try increasing number of retries/interval config parameter"

/-- The loop of waitLinkUp (plugin.go lines 483-496): fuel is the number of
loop iterations left and k the 0-based count of polls already made. The Go
loop runs i = 1..retryCount, breaks as soon as a poll reports up, and returns
the fatal error when the last iteration still is not up; a sleep of the fixed
interval separates consecutive polls. -/
def waitLinkUpLoop (pollFn : ℕ → Except Err String) (ofPortName : String) (interval : Int) :
    ℕ → ℕ → Option Err × List WaitEvent
  | 0, _ => (none, [])
  | fuel + 1, k =>
      let r := pollFn k
      if isUpResult r then (none, [WaitEvent.poll r])
      else if fuel = 0 then (some (linkUpFatalErr ofPortName), [WaitEvent.poll r])
      else
        let rest := waitLinkUpLoop pollFn ofPortName interval fuel (k + 1)
        (rest.1, WaitEvent.poll r :: WaitEvent.sleep interval :: rest.2)

/-- waitLinkUp (plugin.go lines 481-498), with retryCount and interval as Go
ints: a non-positive retryCount makes the loop run zero times. -/
def waitLinkUp (pollFn : ℕ → Except Err String) (ofPortName : String)
    (retryCount interval : Int) : Option Err × List WaitEvent :=
  waitLinkUpLoop pollFn ofPortName interval retryCount.toNat 0

/-- The number of polls in a waitLinkUp trace. -/
def numPolls (evs : List WaitEvent) : ℕ :=
  (evs.filter fun ev => match ev with | WaitEvent.poll _ => true | _ => false).length

/-- A well-formed polling trace: it starts and ends with a poll and strictly
alternates polls and sleeps (so exactly one sleep separates two polls). -/
def alternatesPolls : List WaitEvent → Bool
  | [WaitEvent.poll _] => true
  | WaitEvent.poll _ :: WaitEvent.sleep _ :: rest => alternatesPolls rest
  | _ => false

/-- A poll oracle whose port state never becomes up. -/
def pollDown : ℕ → Except Err String := fun _ => .ok "down"

/-! SHA-256 (crypto/sha256), needed by IPAddrToHWAddr for non-IPv4 addresses.
Messages and digests are lists of byte values; words are Nats reduced
mod 2^32. -/

/-- 32-bit right rotation. -/
def rotr32 (n x : ℕ) : ℕ := ((x >>> n) ||| (x <<< (32 - n))) % 4294967296

/-- SHA-256 small sigma 0. -/
def ssig0 (x : ℕ) : ℕ := (rotr32 7 x) ^^^ (rotr32 18 x) ^^^ (x >>> 3)

/-- SHA-256 small sigma 1. -/
def ssig1 (x : ℕ) : ℕ := (rotr32 17 x) ^^^ (rotr32 19 x) ^^^ (x >>> 10)

/-- SHA-256 big Sigma 0. -/
def bsig0 (x : ℕ) : ℕ := (rotr32 2 x) ^^^ (rotr32 13 x) ^^^ (rotr32 22 x)

/-- SHA-256 big Sigma 1. -/
def bsig1 (x : ℕ) : ℕ := (rotr32 6 x) ^^^ (rotr32 11 x) ^^^ (rotr32 25 x)

/-- SHA-256 choice function. -/
def chf (x y z : ℕ) : ℕ := (x &&& y) ^^^ ((x ^^^ 4294967295) &&& z)

/-- SHA-256 majority function. -/
def majf (x y z : ℕ) : ℕ := (x &&& y) ^^^ (x &&& z) ^^^ (y &&& z)

/-- The SHA-256 round constants. -/
def sha256K : List ℕ :=
  [1116352408, 1899447441, 3049323471, 3921009573, 961987163, 1508970993,
   2453635748, 2870763221, 3624381080, 310598401, 607225278, 1426881987,
   1925078388, 2162078206, 2614888103, 3248222580, 3835390401, 4022224774,
   264347078, 604807628, 770255983, 1249150122, 1555081692, 1996064986,
   2554220882, 2821834349, 2952996808, 3210313671, 3336571891, 3584528711,
   113926993, 338241895, 666307205, 773529912, 1294757372, 1396182291,
   1695183700, 1986661051, 2177026350, 2456956037, 2730485921, 2820302411,
   3259730800, 3345764771, 3516065817, 3600352804, 4094571909, 275423344,
   430227734, 506948616, 659060556, 883997877, 958139571, 1322822218,
   1537002063, 1747873779, 1955562222, 2024104815, 2227730452, 2361852424,
   2428436474, 2756734187, 3204031479, 3329325298]

/-- The SHA-256 initial hash value. -/
def sha256H0 : List ℕ :=
  [1779033703, 3144134277, 1013904242, 2773480762, 1359893119, 2600822924,
   528734635, 1541459225]

/-- The k-byte big-endian encoding of n. -/
def beBytes (k n : ℕ) : List ℕ :=
  (List.range k).map fun i => (n >>> (8 * (k - 1 - i))) % 256

/-- SHA-256 padding: a 0x80 byte, zeros up to 56 mod 64, and the bit length
as 8 big-endian bytes. -/
def sha256Pad (msg : List ℕ) : List ℕ :=
  let len := msg.length
  let zeros := (120 - ((len + 1) % 64)) % 64
  msg ++ [0x80] ++ List.replicate zeros 0 ++ beBytes 8 (len * 8)

/-- Big-endian 32-bit words from a byte list. -/
def toWords : List ℕ → List ℕ
  | a :: b :: c :: d :: rest => (((a * 256 + b) * 256 + c) * 256 + d) :: toWords rest
  | _ => []

/-- Extend the 16 block words to the 64-entry message schedule. -/
def extendSchedule (w0 : List ℕ) : List ℕ :=
  (List.range 48).foldl
    (fun w i =>
      let t := 16 + i
      w ++ [(w.getD (t - 16) 0 + ssig0 (w.getD (t - 15) 0) + w.getD (t - 7) 0
              + ssig1 (w.getD (t - 2) 0)) % 4294967296])
    w0

/-- One SHA-256 compression round: the state is the list [a,b,c,d,e,f,g,h]. -/
def sha256Round (st : List ℕ) (kw : ℕ × ℕ) : List ℕ :=
  let a := st.getD 0 0
  let b := st.getD 1 0
  let c := st.getD 2 0
  let d := st.getD 3 0
  let e := st.getD 4 0
  let f := st.getD 5 0
  let g := st.getD 6 0
  let hh := st.getD 7 0
  let t1 := (hh + bsig1 e + chf e f g + kw.1 + kw.2) % 4294967296
  let t2 := (bsig0 a + majf a b c) % 4294967296
  [(t1 + t2) % 4294967296, a, b, c, (d + t1) % 4294967296, e, f, g]

/-- Compress one 64-byte block into the running hash value. -/
def compressBlock (h0 : List ℕ) (block : List ℕ) : List ℕ :=
  let w := extendSchedule (toWords block)
  let st := (w.zip sha256K).foldl sha256Round h0
  (h0.zip st).map fun p => (p.1 + p.2) % 4294967296

/-- Split a byte list into 64-byte chunks; the fuel bounds the recursion. -/
def chunks64Aux : ℕ → List ℕ → List (List ℕ)
  | 0, _ => []
  | _, [] => []
  | fuel + 1, l => l.take 64 :: chunks64Aux fuel (l.drop 64)

/-- Split a byte list into 64-byte chunks. -/
def chunks64 (l : List ℕ) : List (List ℕ) := chunks64Aux l.length l

/-- The SHA-256 digest of a byte list, as 32 bytes. -/
def sha256Bytes (msg : List ℕ) : List ℕ :=
  (((chunks64 (sha256Pad msg)).foldl compressBlock sha256H0).map (beBytes 4)).flatten

/-! Go net.IP (net/ip.go): a byte slice, with To4 and String as the plugin
uses them. Strings are ASCII here, so the bytes of a string are the code
points of its characters. -/

/-- An IP address as Go represents it: its byte slice. -/
abbrev IPBytes := List ℕ

/-- The IPv4-in-IPv6 prefix ::ffff: as its 12 leading bytes. -/
def v4InV6Pre : List ℕ := [0, 0, 0, 0, 0, 0, 0, 0, 0, 0, 0xff, 0xff]

/-- Go net.IP.To4: the 4-byte form of an IPv4 address, or none. -/
def ipTo4 (ip : IPBytes) : Option IPBytes :=
  if ip.length = 4 then some ip
  else if ip.length = 16 ∧ ip.take 12 = v4InV6Pre then some (ip.drop 12)
  else none

/-- A lowercase hex digit. -/
def hexDigitChar (n : ℕ) : Char :=
  if n < 10 then Char.ofNat (48 + n) else Char.ofNat (87 + n)

/-- Lowercase hex digits of n without leading zeros; the fuel bounds the
recursion. -/
def hexChars : ℕ → ℕ → List Char
  | 0, _ => []
  | _ + 1, 0 => []
  | fuel + 1, n => hexChars fuel (n / 16) ++ [hexDigitChar (n % 16)]

/-- Lowercase hex string of n, as Go appendHex writes a group. -/
def hexStr (n : ℕ) : String :=
  if n = 0 then "0" else String.mk (hexChars n n)

/-- A byte as exactly two lowercase hex digits. -/
def byteHex (n : ℕ) : String :=
  String.mk [hexDigitChar (n / 16 % 16), hexDigitChar (n % 16)]

/-- The eight 16-bit groups of a 16-byte IPv6 address. -/
def ip6Groups : List ℕ → List ℕ
  | a :: b :: rest => (a * 256 + b) :: ip6Groups rest
  | _ => []

/-- The length of the run of zero groups starting at position i. -/
def zeroRunLen (gs : List ℕ) (i : ℕ) : ℕ :=
  ((gs.drop i).takeWhile fun g => g == 0).length

/-- The earliest longest run of zero groups, kept only when at least two
groups long — Go net.IP.String replaces exactly that run with the double
colon. -/
def bestZeroRun (gs : List ℕ) : Option (ℕ × ℕ) :=
  let best := (List.range gs.length).foldl
    (fun acc i =>
      let l := zeroRunLen gs i
      match acc with
      | none => if 1 ≤ l then some (i, l) else none
      | some best => if best.2 < l then some (i, l) else some best)
    none
  match best with
  | some (s, l) => if 2 ≤ l then some (s, l) else none
  | none => none

/-- The RFC 5952 string of a 16-byte IPv6 address, as Go net.IP.String
writes it. -/
def ip6String (b : List ℕ) : String :=
  let gs := ip6Groups b
  match bestZeroRun gs with
  | none => String.intercalate ":" (gs.map hexStr)
  | some (s, l) =>
      String.intercalate ":" ((gs.take s).map hexStr) ++ "::"
        ++ String.intercalate ":" ((gs.drop (s + l)).map hexStr)

/-- Go net.IP.String: nil form, dotted decimal for IPv4, RFC 5952 for 16-byte
addresses, and a question mark with raw hex for any other length. -/
def ipString (ip : IPBytes) : String :=
  if ip.length = 0 then "<nil>"
  else
    match ipTo4 ip with
    | some p4 => String.intercalate "." (p4.map Nat.repr)
    | none =>
        if ip.length ≠ 16 then "?" ++ String.join (ip.map byteHex)
        else ip6String ip

/-- The bytes of an ASCII string. -/
def strBytes (s : String) : List ℕ := s.data.map Char.toNat

/-- IPAddrToHWAddr (plugin.go lines 95-105): the fixed private prefix 0A:58
followed by the four IPv4 octets, or by the first four bytes of the SHA-256
hash of the textual form of the address when it is not IPv4. -/
def IPAddrToHWAddr (ip : IPBytes) : List ℕ :=
  match ipTo4 ip with
  | some ip4 => [0x0A, 0x58] ++ ip4
  | none => [0x0A, 0x58] ++ (sha256Bytes (strBytes (ipString ip))).take 4

/-! CmdDel (plugin.go lines 528-662). Each external collaborator call is an
outcome oracle; the run is the returned error, the trace of externally
visible actions, and the cache state left behind. The function-scope err
variable that the deferred cache cleanup (lines 544-550) reads is threaded
explicitly, because several return sites leave it different from the value
the function returns: the removeOvsPort and cleanPorts failures return a
shadowed err declared in the if statement, and the tolerated link-deletion
path returns nil while err still holds the tolerated error. -/

/-- The fields of the cached record that steer CmdDel: the IPAM type, whether
hardware offload is enabled for the cached device id, and the cached
userspace-driver flag. -/
structure DelCacheRec where
  ipamType : String
  offload : Bool
  userspaceMode : Bool
deriving DecidableEq

/-- The combined outcome of ns.WithNetNSPath plus ip.DelLinkByName (plugin.go
lines 640-643): success, the two tolerated failures, or any other error. -/
inductive DelLinkOutcome
  | ok
  | nsGone
  | linkGone
  | fail (e : Err)
deriving DecidableEq

/-- Outcome oracles for every external call a CmdDel run can make. -/
structure DelWorld where
  envArgs : Except Err Unit
  newOvsDriver : Except Err Unit
  bridgeRes : Except Err String
  newOvsBridgeDriver : Except Err Unit
  ipamDel : Except Err Unit
  netRep : Except Err String
  resetVF : Except Err Unit
  cleanPortsSweep : Except Err Unit
  portLookup : Except Err (Option String)
  removePort : Except Err Unit
  releaseVF : Except Err Unit
  delLink : DelLinkOutcome
  cleanCache : Except Err Unit

/-- An externally visible action of a CmdDel run. -/
inductive DelAction
  | ipamExecDel
  | deletePort (name : String)
  | resetVF
  | sweep
  | lookupPort (contIface netnsPath : String)
  | releaseVF
  | delLink (name : String)
  | cleanCache
deriving DecidableEq

/-- What the body of CmdDel (everything after the cache load and before the
deferred cleanup) produces: the returned error, the value of the
function-scope err variable at that return, and the action trace. -/
structure DelBodyOut where
  ret : Option Err
  errVar : Option Err
  trace : List DelAction
deriving DecidableEq

/-- The value of the Go sentinel error the tolerated link-deletion outcomes
leave in the err variable. -/
def delLinkSentinel : DelLinkOutcome → Option Err
  | .nsGone => some "ns path does not exist"
  | .linkGone => some "link not found"
  | .ok => none
  | .fail e => some e

/-- The shared tail of CmdDel at lines 656-661: the closing cleanPorts sweep,
whose failure returns a shadowed err while the function-scope err keeps the
value ev, and otherwise the return of ev itself. -/
def delFinishSweep (w : DelWorld) (ev : Option Err) (tr : List DelAction) : DelBodyOut :=
  match w.cleanPortsSweep with
  | .error e => ⟨some e, ev, tr ++ [DelAction.sweep]⟩
  | .ok _ => ⟨ev, ev, tr ++ [DelAction.sweep]⟩

/-- CmdDel from line 628 on (after the port matching the DEL arguments was
removed): VF release for offload devices, or the in-namespace link deletion
with its two tolerated failures, then the closing sweep. -/
def cmdDelTail (w : DelWorld) (rcd : DelCacheRec) (portFound : Option String)
    (ifName : String) (tr : List DelAction) : DelBodyOut :=
  if rcd.offload then
    if ¬rcd.userspaceMode then
      match w.releaseVF with
      | .error e => delFinishSweep w (some e) (tr ++ [DelAction.releaseVF, DelAction.resetVF])
      | .ok _ => delFinishSweep w none (tr ++ [DelAction.releaseVF])
    else delFinishSweep w none tr
  else
    match w.delLink with
    | .ok => delFinishSweep w none (tr ++ [DelAction.delLink ifName])
    | .fail e => delFinishSweep w (some e) (tr ++ [DelAction.delLink ifName])
    | .nsGone =>
        match portFound with
        | some p => ⟨none, delLinkSentinel .nsGone, tr ++ [DelAction.delLink ifName, DelAction.delLink p]⟩
        | none => ⟨none, delLinkSentinel .nsGone, tr ++ [DelAction.delLink ifName]⟩
    | .linkGone =>
        match portFound with
        | some p => ⟨none, delLinkSentinel .linkGone, tr ++ [DelAction.delLink ifName, DelAction.delLink p]⟩
        | none => ⟨none, delLinkSentinel .linkGone, tr ++ [DelAction.delLink ifName]⟩

/-- The body of CmdDel (plugin.go lines 552-661), given a successfully loaded
cache record. -/
def cmdDelBody (w : DelWorld) (netnsPath ifName : String) (rcd : DelCacheRec) : DelBodyOut :=
  match w.envArgs with
  | .error e => ⟨some e, some e, []⟩
  | .ok _ =>
  match w.newOvsDriver with
  | .error e => ⟨some e, some e, []⟩
  | .ok _ =>
  match w.bridgeRes with
  | .error e => ⟨some e, some e, []⟩
  | .ok _ =>
  match w.newOvsBridgeDriver with
  | .error e => ⟨some e, some e, []⟩
  | .ok _ =>
  let ipamStep : Option Err × List DelAction :=
    if rcd.ipamType ≠ "" then
      match w.ipamDel with
      | .error e => (some e, [DelAction.ipamExecDel])
      | .ok _ => (none, [DelAction.ipamExecDel])
    else (none, [])
  match ipamStep with
  | (some e, tr0) => ⟨some e, some e, tr0⟩
  | (none, tr0) =>
  if netnsPath = "" then
    if rcd.offload then
      match w.netRep with
      | .error e => ⟨some e, some e, tr0⟩
      | .ok rep =>
          let repErr : Option Err :=
            match w.removePort with
            | .error e => some e
            | .ok _ => none
          if ¬rcd.userspaceMode then
            match w.resetVF with
            | .error e2 => ⟨some e2, some e2, tr0 ++ [DelAction.deletePort rep, DelAction.resetVF]⟩
            | .ok _ => ⟨none, none, tr0 ++ [DelAction.deletePort rep, DelAction.resetVF]⟩
          else ⟨none, repErr, tr0 ++ [DelAction.deletePort rep]⟩
    else
      match w.cleanPortsSweep with
      | .error e => ⟨some e, none, tr0 ++ [DelAction.sweep]⟩
      | .ok _ => ⟨none, none, tr0 ++ [DelAction.sweep]⟩
  else
    match w.portLookup with
    | .error e =>
        ⟨some ("Failed to obtain OVS port for given connection: " ++ e), some e,
         tr0 ++ [DelAction.lookupPort ifName netnsPath]⟩
    | .ok found =>
        let tr1 := tr0 ++ [DelAction.lookupPort ifName netnsPath]
        match found with
        | some portName =>
            match w.removePort with
            | .error e => ⟨some e, none, tr1 ++ [DelAction.deletePort portName]⟩
            | .ok _ =>
                cmdDelTail w rcd (some portName) ifName (tr1 ++ [DelAction.deletePort portName])
        | none => cmdDelTail w rcd none ifName tr1

/-- The result of a full CmdDel run: the returned error, the action trace,
and the cache state left on disk. -/
structure DelResult where
  ret : Option Err
  trace : List DelAction
  cacheAfter : Option DelCacheRec
deriving DecidableEq

/-- CmdDel (plugin.go lines 528-662): return nil doing nothing when no cache
record loads, otherwise run the body and then the deferred cache cleanup,
which removes the record exactly when the function-scope err variable is nil
at return (a failed removal attempt is only logged). -/
def CmdDel (w : DelWorld) (netnsPath ifName : String) (cacheState : Option DelCacheRec) :
    DelResult :=
  match cacheState with
  | none => ⟨none, [], none⟩
  | some rcd =>
      let b := cmdDelBody w netnsPath ifName rcd
      if b.errVar = none then
        match w.cleanCache with
        | .ok _ => ⟨b.ret, b.trace ++ [DelAction.cleanCache], none⟩
        | .error _ => ⟨b.ret, b.trace ++ [DelAction.cleanCache], some rcd⟩
      else ⟨b.ret, b.trace, some rcd⟩

/-! CmdAdd (plugin.go lines 257-479). As for CmdDel, each external call is an
outcome oracle and the run yields the returned error, the action trace, and
whether the cache record written at line 344 is still on disk at exit (CmdAdd
itself never deletes it). Two defers matter: the best-effort IPAM del armed
right after ipam.ExecAdd (lines 391-397) and the switch-port rollback armed
after the port is attached and the host link brought up (lines 365-379); both
fire only when the function-scope err variable is non-nil at return, so the
missing-IP return at line 410 (which does not assign err) fires neither. -/

/-- The configuration fields of the loaded NetConf that steer CmdAdd. -/
structure AddNetConf where
  ipamType : String
  vlanTag : Option ℕ
  trunk : List Trunk
  offload : Bool
deriving DecidableEq

/-- Outcome oracles for every external call a CmdAdd run can make. -/
structure AddWorld where
  envArgs : Except Err Unit
  loadConf : Except Err Unit
  newOvsDriver : Except Err Unit
  bridgeRes : Except Err String
  newOvsBridgeDriver : Except Err Unit
  hasUserspaceDriver : Except Err Bool
  cleanPortsSweep : Except Err Unit
  getNS : Except Err Unit
  vfLinkName : Except Err String
  saveCache : Except Err Unit
  setupIface : Except Err (String × String)
  createPort : Except Err Unit
  hostLinkUp : Except Err Unit
  ipamAdd : Except Err Unit
  resultConv : Except Err Unit
  ipsEmpty : Bool
  waitUp : Except Err Unit
  contLinkByName : Except Err Unit
  setMac : Except Err Unit
  configureIface : Except Err Unit
  contInterfaceByName : Except Err Unit
  portLookup : Except Err (Option String)
  removePort : Except Err Unit
  printResult : Except Err Unit

/-- An externally visible action of a CmdAdd run. -/
inductive AddAction
  | sweep
  | saveCache
  | createPort (host cont netnsPath portType : String) (trunks : List ℕ) (tag : ℕ)
  | ipamAdd
  | ipamDel
  | waitUp
  | assignMac
  | configIface
  | garp
  | lookupPort (contIface netnsPath : String)
  | deletePort (name : String)
deriving DecidableEq

/-- The result of a CmdAdd run. -/
structure AddResult where
  ret : Option Err
  trace : List AddAction
  cacheSaved : Bool
deriving DecidableEq

/-- The actions of the armed switch-port rollback (plugin.go lines 365-379):
look the port up by container interface name and namespace path; a lookup
failure is only logged, and when a port is found its removal is attempted,
with a removal failure again only logged. -/
def rollbackActions (w : AddWorld) (ifName netnsPath : String) : List AddAction :=
  AddAction.lookupPort ifName netnsPath ::
    match w.portLookup with
    | .ok (some p) => [AddAction.deletePort p]
    | .ok none => []
    | .error _ => []

/-- A return from CmdAdd at a point where the rollback defer (and, when
ipamArmed, the IPAM compensation defer) is registered: when the err variable
is non-nil the defers run in LIFO order, the IPAM del first. Neither defer
changes the returned error or the cache. -/
def addReturn (w : AddWorld) (ifName netnsPath : String) (ipamArmed : Bool)
    (ret errVar : Option Err) (tr : List AddAction) : AddResult :=
  if errVar = none then ⟨ret, tr, true⟩
  else
    let tr1 := if ipamArmed then tr ++ [AddAction.ipamDel] else tr
    ⟨ret, tr1 ++ rollbackActions w ifName netnsPath, true⟩

/-- The body of the contNetns.Do closure of CmdAdd (plugin.go lines 428-461):
optional MAC derivation and assignment, interface configuration, the
container-side lookup for the gratuitous ARP, which itself is best-effort.
Returns the closure error and the actions performed. -/
def addNsDo (w : AddWorld) (needMac : Bool) (ifName : String) :
    Option Err × List AddAction :=
  let tail : Option Err × List AddAction :=
    match w.configureIface with
    | .error e => (some e, [AddAction.configIface])
    | .ok _ =>
        match w.contInterfaceByName with
        | .error e => (some ("failed to look up " ++ ifName ++ ": " ++ e),
                       [AddAction.configIface])
        | .ok _ => (none, [AddAction.configIface, AddAction.garp])
  if needMac then
    match w.contLinkByName with
    | .error e => (some ("failed to lookup container interface " ++ ifName ++ ": " ++ e), [])
    | .ok _ =>
        match w.setMac with
        | .error e =>
            (some ("failed to set container iface " ++ ifName ++ " MAC: " ++ e), [])
        | .ok _ => (tail.1, AddAction.assignMac :: tail.2)
  else tail

/-- CmdAdd (plugin.go lines 257-479). The port-kind computation uses the
embedded computeVlanPolicy (and with it the real splitVlanIds); the cache is
written before the interface is provisioned and the port created, and is
never removed by CmdAdd itself, whatever fails later. -/
def CmdAdd (w : AddWorld) (nc : AddNetConf) (ifName netnsPath mac : String) : AddResult :=
  match w.envArgs with
  | .error e => ⟨some e, [], false⟩
  | .ok _ =>
  match w.loadConf with
  | .error e => ⟨some e, [], false⟩
  | .ok _ =>
  match computeVlanPolicy nc.vlanTag nc.trunk with
  | .error e => ⟨some e, [], false⟩
  | .ok pol =>
  match w.newOvsDriver with
  | .error e => ⟨some e, [], false⟩
  | .ok _ =>
  match w.bridgeRes with
  | .error e => ⟨some e, [], false⟩
  | .ok _ =>
  match w.newOvsBridgeDriver with
  | .error e => ⟨some e, [], false⟩
  | .ok _ =>
  match (if nc.offload then w.hasUserspaceDriver else .ok false) with
  | .error e => ⟨some e, [], false⟩
  | .ok userspaceMode =>
  match w.cleanPortsSweep with
  | .error e => ⟨some e, [AddAction.sweep], false⟩
  | .ok _ =>
  match w.getNS with
  | .error e => ⟨some ("failed to open netns " ++ netnsPath ++ ": " ++ e),
                 [AddAction.sweep], false⟩
  | .ok _ =>
  match (if nc.offload ∧ ¬userspaceMode then w.vfLinkName else .ok "") with
  | .error e => ⟨some e, [AddAction.sweep], false⟩
  | .ok _ =>
  match w.saveCache with
  | .error e => ⟨some ("error saving NetConf " ++ e), [AddAction.sweep], false⟩
  | .ok _ =>
  let tr0 := [AddAction.sweep, AddAction.saveCache]
  match w.setupIface with
  | .error e => ⟨some e, tr0, true⟩
  | .ok ifaces =>
  let tr1 := tr0 ++ [AddAction.createPort ifaces.1 ifaces.2 netnsPath pol.1 pol.2.1 pol.2.2]
  match w.createPort with
  | .error e => ⟨some e, tr1, true⟩
  | .ok _ =>
  match w.hostLinkUp with
  | .error e => ⟨some e, tr1, true⟩
  | .ok _ =>
  if nc.ipamType ≠ "" ∧ ¬userspaceMode then
    match w.ipamAdd with
    | .error e =>
        addReturn w ifName netnsPath true
          (some ("failed to set up IPAM plugin type " ++ nc.ipamType ++ ": " ++ e)) (some e)
          (tr1 ++ [AddAction.ipamAdd])
    | .ok _ =>
    let tr2 := tr1 ++ [AddAction.ipamAdd]
    match w.resultConv with
    | .error e => addReturn w ifName netnsPath true (some e) (some e) tr2
    | .ok _ =>
    if w.ipsEmpty then ⟨some "IPAM plugin returned missing IP config", tr2, true⟩
    else
      match w.waitUp with
      | .error e => addReturn w ifName netnsPath true (some e) (some e) (tr2 ++ [AddAction.waitUp])
      | .ok _ =>
      let tr3 := tr2 ++ [AddAction.waitUp]
      let nsRes := addNsDo w (mac = "" ∧ ¬nc.offload) ifName
      match nsRes.1 with
      | some e => addReturn w ifName netnsPath true (some e) (some e) (tr3 ++ nsRes.2)
      | none =>
          match w.printResult with
          | .error e => ⟨some e, tr3 ++ nsRes.2, true⟩
          | .ok _ => ⟨none, tr3 ++ nsRes.2, true⟩
  else
    match w.printResult with
    | .error e => ⟨some e, tr1, true⟩
    | .ok _ => ⟨none, tr1, true⟩

/-! Concrete inputs used to exercise the theorems below. -/

/-- A trunk list whose range entry has minID 0: the claimed union keeps the
range members 0..5 but the code drops them. -/
def c5BadTrunks : List Trunk := [⟨some 0, some 5, none⟩, ⟨none, none, some 7⟩]

/-- The sample trunk specification of the specification: the range 10..12
together with the single id 12. -/
def sampleTrunks : List Trunk := [⟨some 10, some 12, none⟩, ⟨none, none, some 12⟩]

/-- A sample IPv6 address, 2001:db8::1. -/
def sampleV6 : IPBytes := [0x20, 0x01, 0x0d, 0xb8, 0, 0, 0, 0, 0, 0, 0, 0, 0, 0, 0, 1]

/-- A link lookup that always fails. -/
def failingLinkLookup : String → Except Err NetLink := fun _ => .error "Link not found"

/-- A bridge environment whose second uplink candidate resolves. -/
def c7Env : BridgeEnv :=
  { uplinks := .ok ["u1", "u2"]
    findBridgeByInterface := fun u => if u = "u2" then .ok "br-ex" else .error "no bridge" }

/-- A CmdDel world in which every collaborator call succeeds and the port
lookup finds the port p1. -/
def okDelWorld : DelWorld :=
  { envArgs := .ok ()
    newOvsDriver := .ok ()
    bridgeRes := .ok "br0"
    newOvsBridgeDriver := .ok ()
    ipamDel := .ok ()
    netRep := .ok "rep0"
    resetVF := .ok ()
    cleanPortsSweep := .ok ()
    portLookup := .ok (some "p1")
    removePort := .ok ()
    releaseVF := .ok ()
    delLink := .ok
    cleanCache := .ok () }

/-- The CmdDel world of the cache bug: the port removal fails, everything
else succeeds. -/
def c2World : DelWorld := { okDelWorld with removePort := .error "ovsdb transaction failed" }

/-- A cache record for a software-path attachment without IPAM. -/
def c2Rec : DelCacheRec := ⟨"", false, false⟩

/-- A CmdAdd world in which everything up to the IPAM add succeeds and the
IPAM add fails; the rollback lookup finds the created port veth1. -/
def c1World : AddWorld :=
  { envArgs := .ok ()
    loadConf := .ok ()
    newOvsDriver := .ok ()
    bridgeRes := .ok "br0"
    newOvsBridgeDriver := .ok ()
    hasUserspaceDriver := .ok false
    cleanPortsSweep := .ok ()
    getNS := .ok ()
    vfLinkName := .ok ""
    saveCache := .ok ()
    setupIface := .ok ("veth1", "eth0")
    createPort := .ok ()
    hostLinkUp := .ok ()
    ipamAdd := .error "no addresses available"
    resultConv := .ok ()
    ipsEmpty := false
    waitUp := .ok ()
    contLinkByName := .ok ()
    setMac := .ok ()
    configureIface := .ok ()
    contInterfaceByName := .ok ()
    portLookup := .ok (some "veth1")
    removePort := .ok ()
    printResult := .ok () }

/-- The network configuration of the c1World run: IPAM configured, no VLAN
tag, no trunks, no hardware offload. -/
def c1Conf : AddNetConf := ⟨"host-local", none, [], false⟩

/-- The conclusions of the armed-rollback claim for one CmdAdd run r failing
with e: the run returns e, the cache record written before IPAM persists, the
switch port was looked up by container interface name and namespace path, and
when the lookup found a port that port was deleted. -/
def rollbackOutcome (w : AddWorld) (r : AddResult) (ifName netnsPath : String)
    (e : Err) : Prop :=
  r.ret = some e ∧ r.cacheSaved = true ∧
    AddAction.lookupPort ifName netnsPath ∈ r.trace ∧
    (∀ p, w.portLookup = .ok (some p) → AddAction.deletePort p ∈ r.trace)

/-! Helper lemmas. -/

theorem mem_mapInsert {l : List ℕ} {v x : ℕ} : x ∈ mapInsert l v ↔ x ∈ l ∨ x = v := by
  unfold mapInsert
  split
  · rename_i hv
    constructor
    · exact fun hx => Or.inl hx
    · rintro (hx | rfl)
      · exact hx
      · exact hv
  · simp [List.mem_append]

theorem nodup_mapInsert {l : List ℕ} {v : ℕ} (h : l.Nodup) : (mapInsert l v).Nodup := by
  unfold mapInsert
  split
  · exact h
  · rename_i hv
    simpa [List.nodup_append] using ⟨h, fun hx => hv hx⟩

theorem mem_foldl_mapInsert {L : List ℕ} :
    ∀ {init : List ℕ} {x : ℕ}, x ∈ L.foldl mapInsert init ↔ x ∈ init ∨ x ∈ L := by
  induction L with
  | nil => simp
  | cons a L ih =>
      intro init x
      rw [List.foldl_cons, ih, mem_mapInsert, List.mem_cons]
      tauto

theorem nodup_foldl_mapInsert {L : List ℕ} :
    ∀ {init : List ℕ}, init.Nodup → (L.foldl mapInsert init).Nodup := by
  induction L with
  | nil => exact fun h => h
  | cons a L ih => exact fun h => ih (nodup_mapInsert h)

theorem mem_accumRange {vlans : List ℕ} {a b x : ℕ} :
    x ∈ accumRange vlans a b ↔
      x ∈ vlans ∨ (0 < a ∧ 0 < b ∧ x ∈ List.range' a (b + 1 - a)) := by
  unfold accumRange
  split
  · rename_i hc
    rw [mem_foldl_mapInsert]
    tauto
  · rename_i hc
    constructor
    · exact Or.inl
    · rintro (hx | ⟨hx1, hx2, _⟩)
      · exact hx
      · exact absurd ⟨hx1, hx2⟩ hc

theorem nodup_accumRange {vlans : List ℕ} {a b : ℕ} (h : vlans.Nodup) :
    (accumRange vlans a b).Nodup := by
  unfold accumRange
  split
  · exact nodup_foldl_mapInsert h
  · exact h

theorem mem_singleMember {item : Trunk} {x : ℕ} :
    x ∈ singleMember item ↔ item.id = some x := by
  obtain ⟨mo, Mo, io⟩ := item
  cases io <;> simp [singleMember, eq_comm]

theorem mem_rangeMembers_getD {item : Trunk} {x : ℕ}
    (h3 : ¬(item.maxID.isSome ∧ item.maxID.getD 0 < item.minID.getD 0)) :
    (x ∈ rangeMembers item ↔
      0 < item.minID.getD 0 ∧ 0 < item.maxID.getD 0 ∧
        x ∈ List.range' (item.minID.getD 0) (item.maxID.getD 0 + 1 - item.minID.getD 0)) := by
  obtain ⟨mo, Mo, io⟩ := item
  cases mo with
  | none => cases Mo <;> simp [rangeMembers]
  | some m =>
      cases Mo with
      | none => simp [rangeMembers]
      | some M =>
          simp only [Option.isSome_some, Option.getD_some, true_and, not_lt] at h3
          simp only [rangeMembers, Option.getD_some, List.mem_range'_1]
          split
          · rename_i hc
            simp only [Finset.mem_Icc]
            omega
          · rename_i hc
            simp only [Finset.not_mem_empty, false_iff]
            omega

/-- Success of one splitVlanIds loop iteration: the accumulated key list
gains exactly the entry range members and single id, and stays
duplicate-free. -/
theorem processTrunk_ok {vlans v : List ℕ} {item : Trunk}
    (h : processTrunk vlans item = .ok v) :
    (∀ x, x ∈ v ↔ x ∈ vlans ∨ x ∈ rangeMembers item ∨ x ∈ singleMember item) ∧
      (vlans.Nodup → v.Nodup) := by
  unfold processTrunk at h
  split at h
  · simp at h
  split at h
  · simp at h
  split at h
  · simp at h
  rename_i h1 h2 h3
  rcases hio : item.id with _ | i
  · simp only [hio] at h
    injection h with h
    subst h
    refine ⟨fun x => ?_, fun hnd => nodup_accumRange hnd⟩
    rw [mem_accumRange, mem_rangeMembers_getD h3, mem_singleMember, hio]
    constructor
    · rintro (hx | hx)
      · exact Or.inl hx
      · exact Or.inr (Or.inl hx)
    · rintro (hx | hx | hx)
      · exact Or.inl hx
      · exact Or.inr hx
      · exact absurd hx (by simp)
  · simp only [hio] at h
    split at h
    · simp at h
    injection h with h
    subst h
    refine ⟨fun x => ?_, fun hnd => nodup_mapInsert (nodup_accumRange hnd)⟩
    rw [mem_mapInsert, mem_accumRange, mem_rangeMembers_getD h3, mem_singleMember, hio]
    simp only [Option.some.injEq, List.mem_range'_1]
    constructor
    · rintro ((hx | hx) | rfl)
      · exact Or.inl hx
      · exact Or.inr (Or.inl hx)
      · exact Or.inr (Or.inr rfl)
    · rintro (hx | hx | rfl)
      · exact Or.inl (Or.inl hx)
      · exact Or.inl (Or.inr hx)
      · exact Or.inr rfl

/-- Success of the whole splitVlanIds fold: the accumulated keys are exactly
the initial keys plus the code trunk set, and stay duplicate-free. -/
theorem foldlM_processTrunk_ok {trunks : List Trunk} :
    ∀ {init vl : List ℕ}, trunks.foldlM processTrunk init = .ok vl →
      (∀ x, x ∈ vl ↔ x ∈ init ∨ x ∈ codeTrunkSet trunks) ∧ (init.Nodup → vl.Nodup) := by
  induction trunks with
  | nil =>
      intro init vl h
      simp only [List.foldlM_nil] at h
      injection h with h
      subst h
      simp [codeTrunkSet]
  | cons t ts ih =>
      intro init vl h
      simp only [List.foldlM_cons] at h
      cases hp : processTrunk init t with
      | error e =>
          rw [hp] at h
          simp only [bind, Except.bind] at h
          exact absurd h (by simp)
      | ok mid =>
          rw [hp] at h
          simp only [bind, Except.bind] at h
          obtain ⟨hmem, hnd⟩ := processTrunk_ok hp
          obtain ⟨hmem2, hnd2⟩ := ih h
          refine ⟨fun x => ?_, fun h0 => hnd2 (hnd h0)⟩
          rw [hmem2, hmem]
          rw [show codeTrunkSet (t :: ts)
              = rangeMembers t ∪ singleMember t ∪ codeTrunkSet ts from rfl]
          simp only [Finset.mem_union]
          tauto

theorem splitVlanIds_ok {trunks : List Trunk} {l : List ℕ}
    (h : splitVlanIds trunks = .ok l) :
    l.Sorted (· < ·) ∧ l.Nodup ∧ l.toFinset = codeTrunkSet trunks := by
  unfold splitVlanIds at h
  cases hf : trunks.foldlM processTrunk ([] : List ℕ) with
  | error e => rw [hf] at h; simp at h
  | ok vlans =>
      simp only [hf] at h
      split at h
      · simp at h
      injection h with h
      subst h
      obtain ⟨hmem, hnd⟩ := foldlM_processTrunk_ok hf
      have hndv : vlans.Nodup := hnd List.nodup_nil
      have hperm : List.Perm (vlans.insertionSort (· ≤ ·)) vlans :=
        List.perm_insertionSort _ _
      have hnds : (vlans.insertionSort (· ≤ ·)).Nodup := hperm.symm.nodup hndv
      have hsorted : (vlans.insertionSort (· ≤ ·)).Sorted (· ≤ ·) :=
        List.sorted_insertionSort _ _
      refine ⟨hsorted.lt_of_le hnds, hnds, ?_⟩
      ext x
      rw [List.mem_toFinset, hperm.mem_iff, hmem x]
      simp

/-- C5 (amended): on success the trunk resolver output is strictly increasing
and duplicate-free and contains exactly the union of all specified single IDs
and of the members of those ranges whose two bounds are both positive (a 0
bound disables the range); for the range 10..12 together with a separate
single id 12 the result is exactly [10, 11, 12]. -/
theorem c5_trunk_resolution_sorted_union {trunks : List Trunk} {l : List ℕ}
    (h : splitVlanIds trunks = .ok l) :
    l.Sorted (· < ·) ∧ l.Nodup ∧ l.toFinset = codeTrunkSet trunks ∧
      splitVlanIds sampleTrunks = .ok [10, 11, 12] := by
  obtain ⟨h1, h2, h3⟩ := splitVlanIds_ok h
  exact ⟨h1, h2, h3, by decide⟩

theorem c5_trunk_resolution_witness :
    ([10, 11, 12] : List ℕ).Sorted (· < ·) ∧ ([10, 11, 12] : List ℕ).Nodup ∧
      ([10, 11, 12] : List ℕ).toFinset = codeTrunkSet sampleTrunks ∧
      splitVlanIds sampleTrunks = .ok [10, 11, 12] :=
  c5_trunk_resolution_sorted_union (by decide)

/-- C5 counterexample: on the trunk list with the range entry 0..5 and the
single id 7 the resolver succeeds with [7] alone, while the union of the
specified single IDs and range members claimed by the specification is
{0,1,2,3,4,5,7}: the range whose minID is 0 is silently dropped. -/
theorem c5_range_zero_bound_counterexample :
    splitVlanIds c5BadTrunks = .ok [7] ∧
      ([7] : List ℕ).toFinset ≠ claimedTrunkSet c5BadTrunks :=
  ⟨by decide, by decide⟩

/-- C4 (code bug): a single trunk id above 4096 is accepted, because the
guard before inserting the id (plugin.go line 240) compares minID, not id,
with 4096 and so can never fire; the trunk list with the one entry id 5000
resolves to [5000] with no error instead of failing. -/
theorem c4_single_id_above_4096_accepted :
    splitVlanIds [⟨none, none, some 5000⟩] = .ok [5000] := by decide

/-- C9: whenever the VLAN tag is nil or the trunk entry list is non-empty, a
successful port-kind computation yields port type trunk; and with a nil tag
and no trunk entries the computation succeeds with mode trunk, an empty trunk
id list and tag 0, rather than being rejected as a configuration error. -/
theorem c9_port_kind_trunk_default (vlanTag : Option ℕ) (trunk : List Trunk)
    (out : String × List ℕ × ℕ) (h : computeVlanPolicy vlanTag trunk = .ok out)
    (hcond : vlanTag = none ∨ trunk ≠ []) :
    out.1 = "trunk" ∧ computeVlanPolicy none [] = .ok ("trunk", [], 0) := by
  refine ⟨?_, by decide⟩
  unfold computeVlanPolicy at h
  rw [if_pos hcond] at h
  split at h
  · cases hs : splitVlanIds trunk with
    | error e => rw [hs] at h; simp [Except.map] at h
    | ok ids =>
        rw [hs] at h
        simp only [Except.map] at h
        injection h with h
        rw [← h]
  · injection h with h
    rw [← h]

theorem c9_port_kind_witness :
    ("trunk", ([] : List ℕ), (0 : ℕ)).1 = "trunk" ∧
      computeVlanPolicy none [] = .ok ("trunk", [], 0) :=
  c9_port_kind_trunk_default none [] ("trunk", [], 0) (by decide) (Or.inl rfl)

/-- C10: refetchIface never returns an error, and when the host-side link
lookup fails after the namespace move the interface MAC is silently set to
the empty string and the attach proceeds. -/
theorem c10_refetch_never_fails (linkByName : String → Except Err NetLink)
    (iface : CniIface) :
    refetchIface linkByName iface
        = .ok { iface with mac := getHardwareAddr linkByName iface.name } ∧
      (∀ e, linkByName iface.name = .error e →
        refetchIface linkByName iface = .ok { iface with mac := "" }) := by
  refine ⟨rfl, fun e he => ?_⟩
  unfold refetchIface getHardwareAddr
  rw [he]

theorem c10_refetch_witness :
    refetchIface failingLinkLookup ⟨"veth1", "aa:bb:cc:dd:ee:ff", ""⟩
      = .ok ⟨"veth1", "", ""⟩ :=
  (c10_refetch_never_fails failingLinkLookup ⟨"veth1", "aa:bb:cc:dd:ee:ff", ""⟩).2
    "Link not found" rfl

/-- C8: the derived MAC is the fixed two-byte prefix 0A:58 followed by the
four IPv4 octets; a non-IPv4 address gets 0A:58 followed by the first four
bytes of the SHA-256 hash of the textual form of the address; the derivation
is a pure function of the address, so repeated runs agree. -/
theorem c8_mac_derivation (ip : IPBytes) :
    (∀ a b c d, ipTo4 ip = some [a, b, c, d] →
        IPAddrToHWAddr ip = [0x0A, 0x58, a, b, c, d]) ∧
      (ipTo4 ip = none →
        IPAddrToHWAddr ip = [0x0A, 0x58] ++ (sha256Bytes (strBytes (ipString ip))).take 4) ∧
      (∀ ip2, ip2 = ip → IPAddrToHWAddr ip2 = IPAddrToHWAddr ip) := by
  refine ⟨fun a b c d h => ?_, fun h => ?_, fun ip2 h => by rw [h]⟩
  · unfold IPAddrToHWAddr
    rw [h]
    rfl
  · unfold IPAddrToHWAddr
    rw [h]

theorem c8_mac_witness :
    IPAddrToHWAddr [10, 0, 0, 5] = [0x0A, 0x58, 10, 0, 0, 5] ∧
      IPAddrToHWAddr sampleV6
        = [0x0A, 0x58] ++ (sha256Bytes (strBytes (ipString sampleV6))).take 4 :=
  ⟨(c8_mac_derivation [10, 0, 0, 5]).1 10 0 0 5 (by decide),
   (c8_mac_derivation sampleV6).2.1 (by decide)⟩

/-- Sanity check of the SHA-256 embedding against the standard test vector
for the string abc. -/
theorem sha256_abc_vector :
    sha256Bytes (strBytes "abc")
      = [0xba, 0x78, 0x16, 0xbf, 0x8f, 0x01, 0xcf, 0xea, 0x41, 0x41, 0x40, 0xde,
         0x5d, 0xae, 0x22, 0x23, 0xb0, 0x03, 0x61, 0xa3, 0x96, 0x17, 0x7a, 0x9c,
         0xb4, 0x10, 0xff, 0x61, 0xf2, 0x00, 0x15, 0xad] := by decide

/-- C3: with no cache record for the key, CmdDel returns success, performs no
externally visible action and leaves no record; consequently, after a first
detach that removed the record, a second detach for the same key again
returns success and performs no action. -/
theorem c3_detach_idempotent (w : DelWorld) (netnsPath ifName : String) :
    CmdDel w netnsPath ifName none = ⟨none, [], none⟩ ∧
      (∀ (w2 : DelWorld) (rcd : DelCacheRec),
        (CmdDel w netnsPath ifName (some rcd)).ret = none →
        (CmdDel w netnsPath ifName (some rcd)).cacheAfter = none →
        CmdDel w2 netnsPath ifName (CmdDel w netnsPath ifName (some rcd)).cacheAfter
          = ⟨none, [], none⟩) := by
  refine ⟨rfl, fun w2 rcd hret hcache => ?_⟩
  rw [hcache]
  rfl

theorem c3_detach_witness :
    CmdDel okDelWorld "/var/run/netns/ns1" "eth0" none = ⟨none, [], none⟩ ∧
      CmdDel okDelWorld "/var/run/netns/ns1" "eth0"
          (CmdDel okDelWorld "/var/run/netns/ns1" "eth0" (some c2Rec)).cacheAfter
        = ⟨none, [], none⟩ :=
  ⟨(c3_detach_idempotent okDelWorld "/var/run/netns/ns1" "eth0").1,
   (c3_detach_idempotent okDelWorld "/var/run/netns/ns1" "eth0").2 okDelWorld c2Rec
     (by decide) (by decide)⟩

/-- C2 (code bug): a detach that finds the cache record and fails while
removing the switch port returns that error and nevertheless deletes the
cache record, because the removal error is a shadowed variable and the
function-scope err the deferred cache cleanup reads is still nil
(plugin.go lines 544-550 and 623). -/
theorem c2_cache_deleted_despite_failed_detach :
    (CmdDel c2World "/var/run/netns/ns1" "eth0" (some c2Rec)).ret
        = some "ovsdb transaction failed" ∧
      (CmdDel c2World "/var/run/netns/ns1" "eth0" (some c2Rec)).cacheAfter = none :=
  ⟨by decide, by decide⟩

theorem findBridgeLoop_ok_iff (env : BridgeEnv) :
    ∀ (us : List String) (b : String),
      findBridgeLoop env us = .ok b ↔ firstResolvedBridge env us = some b := by
  intro us
  induction us with
  | nil => intro b; simp [findBridgeLoop, firstResolvedBridge]
  | cons u us ih =>
      intro b
      simp only [findBridgeLoop, firstResolvedBridge]
      cases hf : env.findBridgeByInterface u with
      | ok b2 => simp
      | error e =>
          rw [← ih b]
          cases hl : findBridgeLoop env us with
          | ok b2 => simp
          | error el => simp

theorem findBridgeLoop_error_length (env : BridgeEnv) :
    ∀ (us : List String) (el : List Err),
      findBridgeLoop env us = .error el → el.length = us.length := by
  intro us
  induction us with
  | nil =>
      intro el h
      simp only [findBridgeLoop] at h
      injection h with h
      rw [← h]
  | cons u us ih =>
      intro el h
      simp only [findBridgeLoop] at h
      cases hf : env.findBridgeByInterface u with
      | ok b =>
          simp only [hf] at h
          exact absurd h (by simp)
      | error e =>
          simp only [hf] at h
          cases hl : findBridgeLoop env us with
          | ok b =>
              simp only [hl] at h
              exact absurd h (by simp)
          | error el2 =>
              simp only [hl] at h
              injection h with h
              rw [← h]
              simp [ih el2 hl]

/-- C7: getBridgeName evaluates in fixed priority order: a non-empty explicit
bridge name is returned verbatim; otherwise a non-empty ovnPort yields the
fixed name br-int; otherwise a non-empty device identifier resolves the first
candidate uplink whose owning bridge is found, with one accumulated error per
failed candidate and a consolidated failure only if every candidate fails;
otherwise the call fails. -/
theorem c7_bridge_priority (env : BridgeEnv) (bridgeName ovnPort deviceID : String) :
    (bridgeName ≠ "" → getBridgeName env bridgeName ovnPort deviceID = .ok bridgeName) ∧
      (bridgeName = "" → ovnPort ≠ "" →
        getBridgeName env bridgeName ovnPort deviceID = .ok "br-int") ∧
      (bridgeName = "" → ovnPort = "" → deviceID ≠ "" →
        ((∀ e, env.uplinks = .error e →
            getBridgeName env bridgeName ovnPort deviceID
              = .error ("failed to get bridge name - failed to resolve uplink name: " ++ e)) ∧
          (∀ us, env.uplinks = .ok us →
            ((∀ b, firstResolvedBridge env us = some b →
                getBridgeName env bridgeName ovnPort deviceID = .ok b) ∧
              (firstResolvedBridge env us = none →
                ∃ errList, findBridgeLoop env us = .error errList ∧
                  errList.length = us.length ∧
                  getBridgeName env bridgeName ovnPort deviceID
                    = .error ("failed to find bridge by uplink names ["
                        ++ String.intercalate " " us ++ "]: ["
                        ++ String.intercalate " " errList ++ "]")))))) ∧
      (bridgeName = "" → ovnPort = "" → deviceID = "" →
        getBridgeName env bridgeName ovnPort deviceID = .error "failed to get bridge name") := by
  refine ⟨fun h => ?_,
          fun h1 h2 => ?_,
          fun h1 h2 h3 => ⟨fun e he => ?_, fun us hus => ⟨fun b hb => ?_, fun hnone => ?_⟩⟩,
          fun h1 h2 h3 => ?_⟩
  · unfold getBridgeName
    rw [if_pos h]
  · subst h1
    simp [getBridgeName, h2]
  · subst h1; subst h2
    simp [getBridgeName, h3, he]
  · subst h1; subst h2
    have hb2 := (findBridgeLoop_ok_iff env us b).mpr hb
    simp [getBridgeName, h3, hus, hb2]
  · subst h1; subst h2
    cases hl : findBridgeLoop env us with
    | ok b2 =>
        have := (findBridgeLoop_ok_iff env us b2).mp hl
        rw [hnone] at this
        exact absurd this (by simp)
    | error el =>
        exact ⟨el, rfl, findBridgeLoop_error_length env us el hl,
          by simp [getBridgeName, h3, hus, hl]⟩
  · subst h1; subst h2; subst h3
    simp [getBridgeName]

theorem c7_bridge_witness :
    getBridgeName c7Env "br7" "" "" = .ok "br7" ∧
      getBridgeName c7Env "" "port1" "" = .ok "br-int" ∧
      getBridgeName c7Env "" "" "0000:af:06.0" = .ok "br-ex" ∧
      getBridgeName c7Env "" "" "" = .error "failed to get bridge name" :=
  ⟨(c7_bridge_priority c7Env "br7" "" "").1 (by decide),
   (c7_bridge_priority c7Env "" "port1" "").2.1 rfl (by decide),
   (((c7_bridge_priority c7Env "" "" "0000:af:06.0").2.2.1 rfl rfl (by decide)).2
       ["u1", "u2"] rfl).1 "br-ex" (by decide),
   (c7_bridge_priority c7Env "" "" "").2.2.2 rfl rfl rfl⟩

theorem numPolls_cons_poll {r : Except Err String} {evs : List WaitEvent} :
    numPolls (WaitEvent.poll r :: evs) = numPolls evs + 1 := by
  simp [numPolls, List.filter]

theorem numPolls_cons_sleep {d : Int} {evs : List WaitEvent} :
    numPolls (WaitEvent.sleep d :: evs) = numPolls evs := by
  simp [numPolls, List.filter]

theorem waitLinkUpLoop_spec (pollFn : ℕ → Except Err String) (name : String)
    (interval : Int) :
    ∀ (fuel k : ℕ), 1 ≤ fuel →
      1 ≤ numPolls (waitLinkUpLoop pollFn name interval fuel k).2 ∧
      numPolls (waitLinkUpLoop pollFn name interval fuel k).2 ≤ fuel ∧
      alternatesPolls (waitLinkUpLoop pollFn name interval fuel k).2 = true ∧
      (∀ d, WaitEvent.sleep d ∈ (waitLinkUpLoop pollFn name interval fuel k).2 →
        d = interval) ∧
      (∀ j, j + 1 < numPolls (waitLinkUpLoop pollFn name interval fuel k).2 →
        isUpResult (pollFn (k + j)) = false) ∧
      ((waitLinkUpLoop pollFn name interval fuel k).1 = none ↔
        isUpResult
          (pollFn (k + (numPolls (waitLinkUpLoop pollFn name interval fuel k).2 - 1)))
          = true) ∧
      ((waitLinkUpLoop pollFn name interval fuel k).1 = none ∨
        ((waitLinkUpLoop pollFn name interval fuel k).1 = some (linkUpFatalErr name) ∧
          numPolls (waitLinkUpLoop pollFn name interval fuel k).2 = fuel)) := by
  intro fuel
  induction fuel with
  | zero => intro k h; exact absurd h (by omega)
  | succ f ih =>
      intro k _
      cases hb : isUpResult (pollFn k) with
      | true =>
          simp only [waitLinkUpLoop, hb, if_pos]
          refine ⟨by simp [numPolls, List.filter], by simp [numPolls, List.filter],
            by simp [alternatesPolls], by simp, fun j hj => ?_, ?_, Or.inl trivial⟩
          · rw [numPolls_cons_poll] at hj
            simp [numPolls] at hj
          · simp only [numPolls_cons_poll]
            simp [numPolls, hb]
      | false =>
          by_cases hf0 : f = 0
          · subst hf0
            simp only [waitLinkUpLoop, hb, Bool.false_eq_true, if_false, if_pos]
            refine ⟨by simp [numPolls, List.filter], by simp [numPolls, List.filter],
              by simp [alternatesPolls], by simp, fun j hj => ?_, ?_, ?_⟩
            · rw [numPolls_cons_poll] at hj
              simp [numPolls] at hj
            · simp only [numPolls_cons_poll]
              simp [numPolls, hb]
            · exact Or.inr ⟨trivial, by simp [numPolls, List.filter]⟩
          · have hIH := ih (k + 1) (by omega)
            obtain ⟨i1, i2, i3, i4, i5, i6, i7⟩ := hIH
            simp only [waitLinkUpLoop, hb, Bool.false_eq_true, if_false, if_neg hf0]
            set rest := waitLinkUpLoop pollFn name interval f (k + 1) with hrest
            have hnp : numPolls
                (WaitEvent.poll (pollFn k) :: WaitEvent.sleep interval :: rest.2)
                = numPolls rest.2 + 1 := by
              rw [numPolls_cons_poll, numPolls_cons_sleep]
            refine ⟨by omega, by omega, ?_, ?_, ?_, ?_, ?_⟩
            · rw [show alternatesPolls
                  (WaitEvent.poll (pollFn k) :: WaitEvent.sleep interval :: rest.2)
                  = alternatesPolls rest.2 from rfl]
              exact i3
            · intro d hd
              simp only [List.mem_cons] at hd
              rcases hd with hd | hd | hd
              · exact absurd hd (by simp)
              · exact WaitEvent.sleep.inj hd
              · exact i4 d hd
            · intro j hj
              rw [hnp] at hj
              cases j with
              | zero => exact hb
              | succ j2 =>
                  have heq : k + (j2 + 1) = (k + 1) + j2 := by omega
                  rw [heq]
                  exact i5 j2 (by omega)
            · rw [hnp]
              have heq : k + (numPolls rest.2 + 1 - 1) = (k + 1) + (numPolls rest.2 - 1) := by
                omega
              rw [heq]
              exact i6
            · rcases i7 with i7 | ⟨i7a, i7b⟩
              · exact Or.inl i7
              · exact Or.inr ⟨i7a, by omega⟩

/-- C6 (amended): for every retry count at least 1, waitLinkUp performs at
least one poll and at most retryCount polls, exactly one sleep of the fixed
interval separates consecutive polls, it returns nil exactly when the last
poll performed reported up (so it stops polling as soon as a poll reports
up), and when all retries are exhausted without an up state it has polled
retryCount times and returns the fatal error. A retry count below 1 runs the
loop zero times and returns nil. -/
theorem c6_bounded_link_polling (pollFn : ℕ → Except Err String) (name : String)
    (retryCount interval : Int) (h : 1 ≤ retryCount) :
    1 ≤ numPolls (waitLinkUp pollFn name retryCount interval).2 ∧
      numPolls (waitLinkUp pollFn name retryCount interval).2 ≤ retryCount.toNat ∧
      alternatesPolls (waitLinkUp pollFn name retryCount interval).2 = true ∧
      (∀ d, WaitEvent.sleep d ∈ (waitLinkUp pollFn name retryCount interval).2 →
        d = interval) ∧
      (∀ j, j + 1 < numPolls (waitLinkUp pollFn name retryCount interval).2 →
        isUpResult (pollFn j) = false) ∧
      ((waitLinkUp pollFn name retryCount interval).1 = none ↔
        isUpResult
          (pollFn (numPolls (waitLinkUp pollFn name retryCount interval).2 - 1)) = true) ∧
      ((waitLinkUp pollFn name retryCount interval).1 = none ∨
        ((waitLinkUp pollFn name retryCount interval).1 = some (linkUpFatalErr name) ∧
          numPolls (waitLinkUp pollFn name retryCount interval).2 = retryCount.toNat)) := by
  have hspec := waitLinkUpLoop_spec pollFn name interval retryCount.toNat 0 (by omega)
  simpa only [waitLinkUp, Nat.zero_add] using hspec

theorem c6_bounded_witness :
    1 ≤ numPolls (waitLinkUp pollDown "port1" 2 100).2 ∧
      numPolls (waitLinkUp pollDown "port1" 2 100).2 ≤ (2 : Int).toNat ∧
      alternatesPolls (waitLinkUp pollDown "port1" 2 100).2 = true ∧
      (∀ d, WaitEvent.sleep d ∈ (waitLinkUp pollDown "port1" 2 100).2 → d = 100) ∧
      (∀ j, j + 1 < numPolls (waitLinkUp pollDown "port1" 2 100).2 →
        isUpResult (pollDown j) = false) ∧
      ((waitLinkUp pollDown "port1" 2 100).1 = none ↔
        isUpResult (pollDown (numPolls (waitLinkUp pollDown "port1" 2 100).2 - 1)) = true) ∧
      ((waitLinkUp pollDown "port1" 2 100).1 = none ∨
        ((waitLinkUp pollDown "port1" 2 100).1 = some (linkUpFatalErr "port1") ∧
          numPolls (waitLinkUp pollDown "port1" 2 100).2 = (2 : Int).toNat)) :=
  c6_bounded_link_polling pollDown "port1" 2 100 (by decide)

/-- C6 counterexample: with retry count 0 the polling loop of waitLinkUp
never runs: no poll at all is performed, and the call returns nil although no
poll ever reported up, contradicting the claim that every invocation polls at
least once and that exhausting the retries without an up state is a fatal
error. -/
theorem c6_zero_retries_counterexample :
    (waitLinkUp pollDown "port1" 0 100).1 = none ∧
      numPolls (waitLinkUp pollDown "port1" 0 100).2 = 0 :=
  ⟨rfl, rfl⟩

/-- C1: once the switch port has been created and the host link brought up,
the rollback defer is armed: for each later step that can fail — the IPAM
add, the link-state wait, the MAC assignment, the container interface
configuration — a failure makes CmdAdd return that failure (wrapped as the
code wraps it), keeps the cache record written before IPAM persisted, and
looks the created switch port up by container interface name and namespace
path, deleting it when the lookup finds it. -/
theorem c1_rollback_after_port_attach (w : AddWorld) (nc : AddNetConf)
    (ifName netnsPath mac hostIf contIf : String)
    (h1 : w.envArgs = .ok ()) (h2 : w.loadConf = .ok ())
    (h3 : ∃ pol, computeVlanPolicy nc.vlanTag nc.trunk = .ok pol)
    (h4 : w.newOvsDriver = .ok ()) (h5 : ∃ b, w.bridgeRes = .ok b)
    (h6 : w.newOvsBridgeDriver = .ok ())
    (h7 : (if nc.offload then w.hasUserspaceDriver else Except.ok false) = .ok false)
    (h8 : w.cleanPortsSweep = .ok ()) (h9 : w.getNS = .ok ())
    (h10 : ∃ s, (if nc.offload then w.vfLinkName else Except.ok "") = .ok s)
    (h11 : w.saveCache = .ok ()) (h12 : w.setupIface = .ok (hostIf, contIf))
    (h13 : w.createPort = .ok ()) (h14 : w.hostLinkUp = .ok ())
    (h15 : nc.ipamType ≠ "") :
    (∀ e, w.ipamAdd = .error e →
      rollbackOutcome w (CmdAdd w nc ifName netnsPath mac) ifName netnsPath
        ("failed to set up IPAM plugin type " ++ nc.ipamType ++ ": " ++ e)) ∧
      (w.ipamAdd = .ok () → w.resultConv = .ok () → w.ipsEmpty = false →
        ∀ e, w.waitUp = .error e →
          rollbackOutcome w (CmdAdd w nc ifName netnsPath mac) ifName netnsPath e) ∧
      (w.ipamAdd = .ok () → w.resultConv = .ok () → w.ipsEmpty = false →
        w.waitUp = .ok () → mac = "" → nc.offload = false →
        w.contLinkByName = .ok () →
        ∀ e, w.setMac = .error e →
          rollbackOutcome w (CmdAdd w nc ifName netnsPath mac) ifName netnsPath
            ("failed to set container iface " ++ ifName ++ " MAC: " ++ e)) ∧
      (w.ipamAdd = .ok () → w.resultConv = .ok () → w.ipsEmpty = false →
        w.waitUp = .ok () →
        (mac = "" ∧ ¬nc.offload → w.contLinkByName = .ok () ∧ w.setMac = .ok ()) →
        ∀ e, w.configureIface = .error e →
          rollbackOutcome w (CmdAdd w nc ifName netnsPath mac) ifName netnsPath e) := by
  obtain ⟨pol, hpol⟩ := h3
  obtain ⟨b, hb⟩ := h5
  obtain ⟨vfs, hvf⟩ := h10
  refine ⟨fun e he => ⟨?_, ?_, ?_, fun p hp => ?_⟩,
          fun hia hrc hie e he => ⟨?_, ?_, ?_, fun p hp => ?_⟩,
          fun hia hrc hie hwu hm hoff hcl e he => ⟨?_, ?_, ?_, fun p hp => ?_⟩,
          fun hia hrc hie hwu hpre e he => ?_⟩
  · simp [CmdAdd, addReturn, rollbackActions, h1, h2, hpol, h4, hb, h6, h7, h8, h9,
      hvf, h11, h12, h13, h14, h15, he]
  · simp [CmdAdd, addReturn, rollbackActions, h1, h2, hpol, h4, hb, h6, h7, h8, h9,
      hvf, h11, h12, h13, h14, h15, he]
  · simp [CmdAdd, addReturn, rollbackActions, h1, h2, hpol, h4, hb, h6, h7, h8, h9,
      hvf, h11, h12, h13, h14, h15, he]
  · simp [CmdAdd, addReturn, rollbackActions, h1, h2, hpol, h4, hb, h6, h7, h8, h9,
      hvf, h11, h12, h13, h14, h15, he, hp]
  · simp [CmdAdd, addReturn, rollbackActions, h1, h2, hpol, h4, hb, h6, h7, h8, h9,
      hvf, h11, h12, h13, h14, h15, hia, hrc, hie, he]
  · simp [CmdAdd, addReturn, rollbackActions, h1, h2, hpol, h4, hb, h6, h7, h8, h9,
      hvf, h11, h12, h13, h14, h15, hia, hrc, hie, he]
  · simp [CmdAdd, addReturn, rollbackActions, h1, h2, hpol, h4, hb, h6, h7, h8, h9,
      hvf, h11, h12, h13, h14, h15, hia, hrc, hie, he]
  · simp [CmdAdd, addReturn, rollbackActions, h1, h2, hpol, h4, hb, h6, h7, h8, h9,
      hvf, h11, h12, h13, h14, h15, hia, hrc, hie, he, hp]
  · simp [CmdAdd, addReturn, rollbackActions, addNsDo, h1, h2, hpol, h4, hb, h6, h7,
      h8, h9, hvf, h11, h12, h13, h14, h15, hia, hrc, hie, hwu, hm, hoff, hcl, he]
  · simp [CmdAdd, addReturn, rollbackActions, addNsDo, h1, h2, hpol, h4, hb, h6, h7,
      h8, h9, hvf, h11, h12, h13, h14, h15, hia, hrc, hie, hwu, hm, hoff, hcl, he]
  · simp [CmdAdd, addReturn, rollbackActions, addNsDo, h1, h2, hpol, h4, hb, h6, h7,
      h8, h9, hvf, h11, h12, h13, h14, h15, hia, hrc, hie, hwu, hm, hoff, hcl, he]
  · simp [CmdAdd, addReturn, rollbackActions, addNsDo, h1, h2, hpol, h4, hb, h6, h7,
      h8, h9, hvf, h11, h12, h13, h14, h15, hia, hrc, hie, hwu, hm, hoff, hcl, he, hp]
  · by_cases hm : mac = "" ∧ ¬nc.offload
    · obtain ⟨hcl, hsm⟩ := hpre hm
      obtain ⟨hm1, hm2⟩ := hm
      refine ⟨?_, ?_, ?_, fun p hp => ?_⟩
      · simp [CmdAdd, addReturn, rollbackActions, addNsDo, h1, h2, hpol, h4, hb, h6,
          h7, h8, h9, hvf, h11, h12, h13, h14, h15, hia, hrc, hie, hwu, hm1, hm2,
          hcl, hsm, he]
      · simp [CmdAdd, addReturn, rollbackActions, addNsDo, h1, h2, hpol, h4, hb, h6,
          h7, h8, h9, hvf, h11, h12, h13, h14, h15, hia, hrc, hie, hwu, hm1, hm2,
          hcl, hsm, he]
      · simp [CmdAdd, addReturn, rollbackActions, addNsDo, h1, h2, hpol, h4, hb, h6,
          h7, h8, h9, hvf, h11, h12, h13, h14, h15, hia, hrc, hie, hwu, hm1, hm2,
          hcl, hsm, he]
      · simp [CmdAdd, addReturn, rollbackActions, addNsDo, h1, h2, hpol, h4, hb, h6,
          h7, h8, h9, hvf, h11, h12, h13, h14, h15, hia, hrc, hie, hwu, hm1, hm2,
          hcl, hsm, he, hp]
    · simp only [Bool.not_eq_true] at hm
      refine ⟨?_, ?_, ?_, fun p hp => ?_⟩
      · simp [CmdAdd, addReturn, rollbackActions, addNsDo, h1, h2, hpol, h4, hb, h6,
          h7, h8, h9, hvf, h11, h12, h13, h14, h15, hia, hrc, hie, hwu, hm, he]
      · simp [CmdAdd, addReturn, rollbackActions, addNsDo, h1, h2, hpol, h4, hb, h6,
          h7, h8, h9, hvf, h11, h12, h13, h14, h15, hia, hrc, hie, hwu, hm, he]
      · simp [CmdAdd, addReturn, rollbackActions, addNsDo, h1, h2, hpol, h4, hb, h6,
          h7, h8, h9, hvf, h11, h12, h13, h14, h15, hia, hrc, hie, hwu, hm, he]
      · simp [CmdAdd, addReturn, rollbackActions, addNsDo, h1, h2, hpol, h4, hb, h6,
          h7, h8, h9, hvf, h11, h12, h13, h14, h15, hia, hrc, hie, hwu, hm, he, hp]

theorem c1_rollback_witness :
    (CmdAdd c1World c1Conf "eth0" "/var/run/netns/ns1" "").ret
        = some "failed to set up IPAM plugin type host-local: no addresses available" ∧
      (CmdAdd c1World c1Conf "eth0" "/var/run/netns/ns1" "").cacheSaved = true ∧
      AddAction.lookupPort "eth0" "/var/run/netns/ns1"
          ∈ (CmdAdd c1World c1Conf "eth0" "/var/run/netns/ns1" "").trace ∧
      AddAction.deletePort "veth1"
          ∈ (CmdAdd c1World c1Conf "eth0" "/var/run/netns/ns1" "").trace := by
  obtain ⟨r1, r2, r3, r4⟩ :=
    (c1_rollback_after_port_attach c1World c1Conf "eth0" "/var/run/netns/ns1" ""
        "veth1" "eth0" rfl rfl ⟨("trunk", [], 0), by decide⟩ rfl ⟨"br0", rfl⟩ rfl rfl
        rfl rfl ⟨"", rfl⟩ rfl rfl rfl rfl (by decide)).1
      "no addresses available" rfl
  exact ⟨by rw [r1]; decide, r2, r3, r4 "veth1" rfl⟩

end OvsCni
